import Mathlib

/-!
Verification development for the real-time location tracking subsystem of the
admin_bustracking dashboard: the WebSocket connection manager
(`websocketService`), the per-entity bounded location-history buffer
(`RealTimeContext`), and the map synchronizer (`BusMap` auto-fit,
`LocationTrail` rendering, bus marker position resolution).

Coordinates are modelled as rationals (`ℚ`): every comparison and arithmetic
operation the embedded code performs on coordinates (equality with 0, min/max,
addition, multiplication by constants) is exact in IEEE doubles on the inputs
considered, so `ℚ` is a faithful shallow embedding.
-/

namespace BusTracking

/-- A geographic position `(lat, lng)` as used throughout the map code. -/
structure Pos where
  lat : ℚ
  lng : ℚ
deriving DecidableEq, Repr

/-- A location sample as delivered by the geolocation watcher or
`simulateLocation`: coordinates plus an optional accuracy (meters). -/
structure Loc where
  lat : ℚ
  lng : ℚ
  accuracy : Option ℚ
deriving DecidableEq, Repr

/-- An entry of the per-entity location history buffer
(`locationHistoryRef` in `RealTimeContext.tsx`): coordinates plus the
ISO timestamp string attached at append time. -/
structure HistEntry where
  lat : ℚ
  lng : ℚ
  timestamp : String
deriving DecidableEq, Repr

/-! ## Location history store (`RealTimeContext.tsx`)

`locationHistoryRef.current` is a `Map<string, Array<entry>>`; we embed it as a
total function from entity ids to lists (absent keys map to `[]`, exactly the
`get(id) || []` idiom of the source). -/

/-- The history map: entity id to its ordered history, oldest first. -/
def Histories : Type := String → List HistEntry

/-- The empty history map (`new Map()`). -/
def emptyHistories : Histories := fun _ => []

/-- The trim step of the source:
`if (history.length > 50) { history.splice(0, history.length - 50); }` —
when the buffer exceeds 50 entries, remove entries from the front until
exactly 50 remain. -/
def trimHistory (h : List HistEntry) : List HistEntry :=
  if h.length > 50 then h.drop (h.length - 50) else h

/-- One `record(id, sample)` call of the history store: fetch the entity's
history (or `[]`), push the entry at the back, trim to 50, store it back.
This is the append path of both `startLocationTracking`'s geolocation
callback and `simulateLocation` in `RealTimeContext.tsx`. -/
def recordHistory (m : Histories) (id : String) (e : HistEntry) : Histories :=
  fun k => if k = id then trimHistory (m id ++ [e]) else m k

/-- Run a sequence of `record` calls (pairs of entity id and entry) against
the empty store, in order. -/
def runRecords (calls : List (String × HistEntry)) : Histories :=
  calls.foldl (fun m c => recordHistory m c.1 c.2) emptyHistories

/-- The last `n` elements of a list (all of it when it is shorter). -/
def lastN (n : Nat) (l : List α) : List α := l.drop (l.length - n)

/-- The entries appended for entity `id` by a call sequence, in append order. -/
def callsFor (id : String) (calls : List (String × HistEntry)) : List HistEntry :=
  (calls.filter (fun c => c.1 = id)).map (fun c => c.2)

/-! ## RealTimeContext provider state

The pieces of `RealTimeProvider` state that the location pipeline touches:
`currentLocation`, the history map, and the `showLocationHistory` flag. -/

/-- The provider state relevant to location recording. -/
structure RTState where
  currentLocation : Option Loc
  histories : Histories
  showLocationHistory : Bool

/-- One arrival of a position sample, the shared body of the
`navigator.geolocation.watchPosition` success callback in
`startLocationTracking` and of `simulateLocation`
(`RealTimeContext.tsx`): always `setCurrentLocation(location)`; append to the
`current_employee` history (trimming to 50) only when `showLocationHistory`
is set. `ts` is the `new Date().toISOString()` string taken at append time. -/
def sampleArrives (st : RTState) (loc : Loc) (ts : String) : RTState :=
  { st with
    currentLocation := some loc
    histories :=
      if st.showLocationHistory then
        recordHistory st.histories "current_employee" ⟨loc.lat, loc.lng, ts⟩
      else st.histories }

/-- The externally visible events that mutate `RTState`:
a sample arrival, toggling `setShowLocationHistory`, and
`clearLocationHistory` (which clears the map but not `currentLocation`). -/
inductive RTEvent
  | sample (loc : Loc) (ts : String)
  | setShow (b : Bool)
  | clearHistory

/-- Apply one event to the provider state, as the source does. -/
def applyEvent (st : RTState) : RTEvent → RTState
  | .sample loc ts => sampleArrives st loc ts
  | .setShow b => { st with showLocationHistory := b }
  | .clearHistory => { st with histories := emptyHistories }

/-- Run a sequence of events, in order. -/
def runEvents (st : RTState) (es : List RTEvent) : RTState :=
  es.foldl applyEvent st

/-- The last sample location occurring in an event sequence, if any. -/
def lastSample (es : List RTEvent) : Option Loc :=
  (es.filterMap (fun e => match e with
    | .sample loc _ => some loc
    | _ => none)).getLast?

/-! ## WebSocket connection manager (`websocketService.ts`)

The service's mutable fields become a state record; the observable actions it
performs (status callbacks, sending the registration message, scheduling a
reconnect timer, closing the transport) become an explicit effect list. -/

/-- `WebSocket.readyState` of the owned transport. -/
inductive ReadyState
  | connecting
  | opened
  | closing
  | closed
deriving DecidableEq, Repr

/-- `ConnectionStatus['status']` of the source. `error` is the spec's
`Failed` state. -/
inductive StatusKind
  | connecting
  | connected
  | disconnected
  | error
deriving DecidableEq, Repr

/-- The `ConnectionStatus` record delivered to status handlers. -/
structure ConnectionStatus where
  status : StatusKind
  message : String
  reconnectAttempts : Nat
deriving DecidableEq, Repr

/-- Mutable fields of `class WebSocketService`. -/
structure WSService where
  ws : Option ReadyState
  reconnectAttempts : Nat
  reconnectTimeout : Option Nat
  isConnecting : Bool
  employeeEmail : Option String
deriving DecidableEq, Repr

/-- A fresh service (`new WebSocketService()`). -/
def WSService.initial : WSService :=
  { ws := none, reconnectAttempts := 0, reconnectTimeout := none,
    isConnecting := false, employeeEmail := none }

/-- Observable side effects of the service. -/
inductive Effect
  | statusUpdate (s : ConnectionStatus)
  | sendRegistration (email : String)
  | scheduleReconnect (delayMs : Nat)
  | closeTransport (code : Nat) (reason : String)
deriving DecidableEq, Repr

/-- `updateStatus(status, message)`: builds the `ConnectionStatus` from the
current `reconnectAttempts` and fans it out to every status handler. -/
def updateStatus (st : WSService) (k : StatusKind) (msg : String) : Effect :=
  .statusUpdate ⟨k, msg, st.reconnectAttempts⟩

/-- `maxReconnectAttempts = 10`. -/
def maxReconnectAttempts : Nat := 10

/-- `reconnectDelay = 1000` (the 1s base delay, in milliseconds). -/
def reconnectDelay : Nat := 1000

/-- `handleReconnection()`: give up with an `error` status once
`reconnectAttempts` has reached the maximum; otherwise increment the counter
and schedule a retry after `min(reconnectDelay * 2^(attempts-1), 30000)` ms. -/
def handleReconnection (st : WSService) : WSService × List Effect :=
  if st.reconnectAttempts ≥ maxReconnectAttempts then
    (st, [updateStatus st .error "Max reconnection attempts reached"])
  else
    let st' := { st with reconnectAttempts := st.reconnectAttempts + 1 }
    let delay := min (reconnectDelay * 2 ^ (st'.reconnectAttempts - 1)) 30000
    ({ st' with reconnectTimeout := some delay },
      [updateStatus st' .disconnected
        ("Connection lost. Reconnecting in " ++ toString (delay / 1000) ++
          "s... (Attempt " ++ toString st'.reconnectAttempts ++ "/" ++
          toString maxReconnectAttempts ++ ")"),
       .scheduleReconnect delay])

/-- The `onclose` handler of the transport: clear `isConnecting`; an unclean
closure runs `handleReconnection()`, a clean one only reports
`disconnected`. -/
def onCloseEvent (st : WSService) (wasClean : Bool) : WSService × List Effect :=
  let st1 := { st with isConnecting := false, ws := some ReadyState.closed }
  if !wasClean then handleReconnection st1
  else (st1, [updateStatus st1 .disconnected "Connection closed"])

/-- `disconnect()`: cancel a pending reconnect timer, close the transport
cleanly (`close(1000, 'Client disconnecting')`) and drop the reference,
clear the stored email, report `disconnected`. -/
def disconnect (st : WSService) : WSService × List Effect :=
  let st1 := { st with reconnectTimeout := none }
  let (st2, closeEffs) :=
    match st1.ws with
    | some _ => ({ st1 with ws := none },
        [Effect.closeTransport 1000 "Client disconnecting"])
    | none => (st1, ([] : List Effect))
  let st3 := { st2 with employeeEmail := none }
  (st3, closeEffs ++ [updateStatus st3 .disconnected
    "Disconnected from WebSocket server"])

/-- Outcome of a `connect(employeeEmail)` call as seen by its caller. -/
inductive ConnectOutcome
  | resolvedAlreadyOpen
  | rejectedInProgress
  | attemptStarted
deriving DecidableEq, Repr

/-- The synchronous part of `connect(employeeEmail)`: if the transport is
already open, resolve at once (before touching any field); if a connection is
in progress, reject; otherwise store the email, mark connecting, emit the
`connecting` status and open a fresh transport. -/
def connect (st : WSService) (email : String) :
    WSService × ConnectOutcome × List Effect :=
  if st.ws = some ReadyState.opened then
    (st, .resolvedAlreadyOpen, [])
  else if st.isConnecting then
    (st, .rejectedInProgress, [])
  else
    let st1 := { st with employeeEmail := some email, isConnecting := true }
    ({ st1 with ws := some ReadyState.connecting }, .attemptStarted,
      [updateStatus st1 .connecting "Connecting to WebSocket server..."])

/-- The `onopen` handler: clear `isConnecting`, reset `reconnectAttempts` to
0, report `connected`, and send the registration message carrying the given
email (`sendEmployeeConnection`). -/
def onOpenEvent (st : WSService) (email : String) : WSService × List Effect :=
  let st1 := { st with
    isConnecting := false, reconnectAttempts := 0, ws := some ReadyState.opened }
  (st1, [updateStatus st1 .connected "Connected to WebSocket server",
    .sendRegistration email])

/-- Does an effect list schedule a reconnect attempt? -/
def schedulesReconnect (effs : List Effect) : Bool :=
  effs.any fun e => match e with
    | .scheduleReconnect _ => true
    | _ => false

/-! ## Inbound message pipeline (`onmessage` + `RealTimeContext` handler)

`ws.onmessage` wraps `JSON.parse` and the handler fan-out in a `try`/`catch`
that only logs on failure. We embed the outcome of `JSON.parse(event.data)`
as an `Option WSMessage` (`none` = the raw text failed to parse) and make the
delivered handler invocations explicit. -/

/-- The `type` discriminant of `WebSocketMessage`; `other` stands for any
string outside the known set (the handler logs it as unknown). -/
inductive MsgType
  | connected
  | employeeConnectedConfirmed
  | enhancedLocationUpdate
  | locationBroadcast
  | pong
  | errorMsg
  | other
deriving DecidableEq, Repr

/-- An inbound feed message after a successful parse; the payload is kept
opaque since the registered handler never stores it. -/
structure WSMessage where
  type : MsgType
  data : String
deriving DecidableEq, Repr

/-- `handleWebSocketMessage` of `RealTimeContext.tsx`: a switch over
`message.type` in which every branch only writes to the console — no branch
mutates the provider state. -/
def handleWebSocketMessage (st : RTState) (m : WSMessage) : RTState :=
  match m.type with
  | .connected => st
  | .employeeConnectedConfirmed => st
  | .enhancedLocationUpdate => st
  | .locationBroadcast => st
  | .pong => st
  | .errorMsg => st
  | .other => st

/-- The combined state an inbound frame can reach: the connection manager
and the provider storing entity data. -/
structure SystemState where
  service : WSService
  context : RTState

/-- One inbound frame through `ws.onmessage`: on a parse failure the error is
logged and nothing else happens (no handler runs, nothing is thrown); on
success every registered handler receives the message — here the
`RealTimeContext` handler, whose invocations we also return as a list. -/
def processIncoming (sys : SystemState) (parsed : Option WSMessage) :
    SystemState × List WSMessage :=
  match parsed with
  | none => (sys, [])
  | some m => ({ sys with context := handleWebSocketMessage sys.context m }, [m])

/-! ## Map auto-fit (`BusMap.tsx`, `MapContent` auto-fit effect)

Inputs: each bus's persisted `current_location` (possibly absent) and the
operator's own `currentLocation`. The effect issues at most one viewport
command per run. -/

/-- The viewport command issued by the auto-fit effect. -/
inductive ViewportCmd
  | unchanged
  | setView (center : Pos) (zoom : Nat)
  | fitBounds (points : List Pos)
deriving DecidableEq, Repr

/-- The validity filter of the auto-fit effect:
`bus.current_location.lat !== 0 && bus.current_location.lng !== 0`. -/
def keepsPosition (p : Pos) : Bool :=
  decide (p.lat ≠ 0) && decide (p.lng ≠ 0)

/-- `allBuses`: the buses' stored locations plus, when present, the
operator's own location pushed as a pseudo-bus. -/
def collectedLocs (busLocs : List (Option Pos)) (currentLocation : Option Pos) :
    List (Option Pos) :=
  match currentLocation with
  | some c => busLocs ++ [some c]
  | none => busLocs

/-- `validBuses` of the auto-fit effect: entries with a location whose
latitude and longitude are both nonzero. -/
def validPositions (busLocs : List (Option Pos)) (currentLocation : Option Pos) :
    List Pos :=
  ((collectedLocs busLocs currentLocation).filterMap id).filter keepsPosition

/-- The auto-fit effect of `MapContent` in `BusMap.tsx`: with exactly one
valid position, `map.setView(pos, 15)`; with more than one,
`map.fitBounds(latLngs)` over the (re-filtered) valid positions; with none,
no command. -/
def autoFitBusMap (busLocs : List (Option Pos)) (currentLocation : Option Pos) :
    ViewportCmd :=
  let allBuses := collectedLocs busLocs currentLocation
  if allBuses.length > 0 then
    let validBuses := validPositions busLocs currentLocation
    if validBuses.length = 1 then
      match validBuses.head? with
      | some p => .setView p 15
      | none => .unchanged
    else if validBuses.length > 1 then
      let latLngs := validBuses.filter keepsPosition
      if latLngs.length > 0 then .fitBounds latLngs else .unchanged
    else .unchanged
  else .unchanged

/-- Widen a (southwest, northeast) corner pair to cover one more point. -/
def extendBounds (acc : Pos × Pos) (q : Pos) : Pos × Pos :=
  (⟨min acc.1.lat q.lat, min acc.1.lng q.lng⟩,
   ⟨max acc.2.lat q.lat, max acc.2.lng q.lng⟩)

/-- The bounding box Leaflet computes for `fitBounds`: southwest and
northeast corners spanning all points. -/
def boundsOf : List Pos → Option (Pos × Pos)
  | [] => none
  | p :: rest => some (rest.foldl extendBounds (p, p))

/-- Membership of a point in a bounding box. -/
def inBounds (b : Pos × Pos) (q : Pos) : Prop :=
  b.1.lat ≤ q.lat ∧ q.lat ≤ b.2.lat ∧ b.1.lng ≤ q.lng ∧ q.lng ≤ b.2.lng

/-! ## Trail rendering (`LocationTrail.tsx`) -/

/-- One rendered `Polyline` of the trail. -/
structure TrailSegment where
  positions : List Pos
  weight : ℚ
  opacity : ℚ
  dashed : Bool
deriving DecidableEq, Repr

/-- `LocationTrail`: no trail below 2 points; at 10 or more points, split at
`recentCount = Math.floor(locations.length * 0.7)` into an older prefix
(dashed, `weight - 1`, `opacity * 0.3`) and a recent suffix of `recentCount`
points (solid, full opacity), each rendered only when it has at least 2
points; otherwise a single uniform polyline.
`Math.floor(len * 0.7)` equals `7 * len / 10` in `Nat` for every length the
buffer can reach (the float product rounds to the exact value below 2^53). -/
def locationTrail (locations : List Pos) (weight opacity : ℚ) :
    List TrailSegment :=
  if locations.length < 2 then []
  else if locations.length ≥ 10 then
    let len := locations.length
    let recentCount := 7 * len / 10
    let olderPositions := locations.take (len - recentCount)
    let recentPositions := locations.drop (len - recentCount)
    (if olderPositions.length ≥ 2 then
      [⟨olderPositions, weight - 1, opacity * (3 / 10), true⟩] else [])
    ++ (if recentPositions.length ≥ 2 then
      [⟨recentPositions, weight, opacity, false⟩] else [])
  else [⟨locations, weight, opacity, false⟩]

/-! ## Bus marker position resolution (`MapContent` in the polling `BusMap`)

Per bus: real-time location from the REST feed, else the persisted
`current_location` (whenever its fields are numbers — no sentinel test), else
the geocoded coordinates of the assigned terminal, else a deterministic
placeholder near the map center. -/

/-- Where a bus marker's position came from. `placeholder idx total` records
the circle parameters used by the final fallback (`idx` the bus's index,
`total` the bus count). -/
inductive MarkerSource
  | live (p : Pos)
  | stored (p : Pos)
  | terminal (p : Pos)
  | placeholder (idx total : Nat)
deriving DecidableEq, Repr

/-- The first-match-wins cascade of the marker position code.
`realTimeLoc` is `realTimeBusLocations[bus.id]`; `currentLoc` is
`bus.current_location` when both fields are numbers; `terminalLoc` is the
geocoded position of the assigned terminal when the bus has one and the
lookup succeeded. -/
def resolveBusPosition (realTimeLoc currentLoc terminalLoc : Option Pos)
    (idx total : Nat) : MarkerSource :=
  match realTimeLoc with
  | some p => .live p
  | none =>
    match currentLoc with
    | some p => .stored p
    | none =>
      match terminalLoc with
      | some p => .terminal p
      | none => .placeholder idx total

/-- The placeholder angle `(idx * 2 * Math.PI) / Math.max(buses.length, 1)`.
`pi` is passed in since the model keeps coordinates rational. -/
def placeholderAngle (idx total : Nat) (pi : ℚ) : ℚ :=
  ((idx : ℚ) * 2 * pi) / (max total 1 : Nat)

/-- The placeholder position: map center offset by `0.001 * cos(angle)` in
latitude and `0.001 * sin(angle)` in longitude; the trigonometric functions
are passed in as parameters (`cosF`, `sinF`). -/
def placeholderPos (center : Pos) (cosF sinF : ℚ → ℚ) (pi : ℚ)
    (idx total : Nat) : Pos :=
  ⟨center.lat + (1 / 1000) * cosF (placeholderAngle idx total pi),
   center.lng + (1 / 1000) * sinF (placeholderAngle idx total pi)⟩

/-- The final `[lat, lng]` the marker is rendered at, given the resolved
source: the three real sources carry their own coordinates, the placeholder
is computed from the map center. -/
def markerCoordinates (center : Pos) (cosF sinF : ℚ → ℚ) (pi : ℚ) :
    MarkerSource → Pos
  | .live p => p
  | .stored p => p
  | .terminal p => p
  | .placeholder idx total => placeholderPos center cosF sinF pi idx total

/-! ## Iterating consecutive unclean closures

For the backoff claim we follow the service through consecutive unclean
closures starting from a freshly connected state. The failed `connect`
attempt that a scheduled retry performs between two closures mutates only
`ws`, `isConnecting` and `employeeEmail` — never `reconnectAttempts`, which
only `onopen` resets — so the scheduled delays are fully determined by the
closure count and we iterate the `onclose` handler directly. -/

/-- A service right after a successful connect handshake:
open transport, `reconnectAttempts` reset to 0. -/
def connectedService : WSService :=
  { ws := some ReadyState.opened, reconnectAttempts := 0,
    reconnectTimeout := none, isConnecting := false,
    employeeEmail := some "driver@example.com" }

/-- The state change of one unclean closure. -/
def uncleanStep (st : WSService) : WSService := (onCloseEvent st false).1

/-- The service state after `n` consecutive unclean closures. -/
def stateAfterClosures : Nat → WSService
  | 0 => connectedService
  | n + 1 => uncleanStep (stateAfterClosures n)

/-- The effects emitted while handling the `n`-th unclean closure
(`n` counted from 1). -/
def effectsAtClosure (n : Nat) : List Effect :=
  (onCloseEvent (stateAfterClosures (n - 1)) false).2

/-- The reconnect delay (ms) scheduled by the `n`-th unclean closure,
if any. -/
def delayScheduledAt (n : Nat) : Option Nat :=
  (effectsAtClosure n).findSome? fun e => match e with
    | .scheduleReconnect d => some d
    | _ => none

/-- The status kind reported while handling the `n`-th unclean closure. -/
def statusReportedAt (n : Nat) : Option StatusKind :=
  (effectsAtClosure n).findSome? fun e => match e with
    | .statusUpdate s => some s.status
    | _ => none

/-! ## Helper lemmas -/

theorem lastN_length_le (n : Nat) (l : List α) : (lastN n l).length ≤ n := by
  simp only [lastN, List.length_drop]
  omega

theorem lastN_of_length_le {n : Nat} {l : List α} (h : l.length ≤ n) :
    lastN n l = l := by
  simp [lastN, Nat.sub_eq_zero_of_le h]

/-- The key invariant-preservation step of the history trim: trimming after
appending to a 50-element suffix yields the 50-element suffix of the longer
log. -/
theorem trimHistory_lastN (l : List HistEntry) (e : HistEntry) :
    trimHistory (lastN 50 l ++ [e]) = lastN 50 (l ++ [e]) := by
  rcases Nat.lt_or_ge l.length 50 with h | h
  · rw [lastN_of_length_le (Nat.le_of_lt h),
      lastN_of_length_le (l := l ++ [e]) (by simp; omega)]
    unfold trimHistory
    rw [if_neg (by simp; omega)]
  · have hlen : (lastN 50 l).length = 50 := by
      simp only [lastN, List.length_drop]; omega
    unfold trimHistory
    rw [if_pos (by simp [hlen])]
    have h1 : (lastN 50 l ++ [e]).length - 50 = 1 := by simp [hlen]
    rw [h1, List.drop_append_of_le_length (by rw [hlen]; omega)]
    simp only [lastN, List.drop_drop, List.length_append,
      List.length_singleton]
    rw [List.drop_append_of_le_length (by omega)]
    have h2 : l.length - 50 + 1 = l.length + 1 - 50 := by omega
    rw [h2]

theorem runRecords_append (calls : List (String × HistEntry))
    (c : String × HistEntry) :
    runRecords (calls ++ [c]) = recordHistory (runRecords calls) c.1 c.2 := by
  simp [runRecords, List.foldl_append]

theorem callsFor_append (id : String) (calls : List (String × HistEntry))
    (c : String × HistEntry) :
    callsFor id (calls ++ [c]) =
      callsFor id calls ++ (if c.1 = id then [c.2] else []) := by
  simp only [callsFor, List.filter_append]
  split <;> simp_all [List.filter]

theorem extendBounds_mono (acc : Pos × Pos) (r q : Pos)
    (h : inBounds acc q) : inBounds (extendBounds acc r) q := by
  obtain ⟨h1, h2, h3, h4⟩ := h
  exact ⟨le_trans (min_le_left _ _) h1, le_trans h2 (le_max_left _ _),
    le_trans (min_le_left _ _) h3, le_trans h4 (le_max_left _ _)⟩

theorem extendBounds_self (acc : Pos × Pos) (q : Pos) :
    inBounds (extendBounds acc q) q :=
  ⟨min_le_right _ _, le_max_right _ _, min_le_right _ _, le_max_right _ _⟩

theorem foldl_extendBounds_mono (rest : List Pos) :
    ∀ (acc : Pos × Pos) (q : Pos), inBounds acc q →
      inBounds (rest.foldl extendBounds acc) q := by
  induction rest with
  | nil => intro acc q h; exact h
  | cons r rs ih =>
    intro acc q h
    exact ih _ q (extendBounds_mono acc r q h)

theorem foldl_extendBounds_mem (rest : List Pos) :
    ∀ (acc : Pos × Pos) (q : Pos), q ∈ rest →
      inBounds (rest.foldl extendBounds acc) q := by
  induction rest with
  | nil => intro _ q hq; cases hq
  | cons r rs ih =>
    intro acc q hq
    rcases List.mem_cons.mp hq with h | h
    · subst h
      exact foldl_extendBounds_mono rs _ q (extendBounds_self acc q)
    · exact ih _ q h

/-- Every point of a nonempty list lies inside the bounding box Leaflet
computes for it. -/
theorem boundsOf_contains (ps : List Pos) (b : Pos × Pos)
    (h : boundsOf ps = some b) : ∀ q ∈ ps, inBounds b q := by
  cases ps with
  | nil => simp [boundsOf] at h
  | cons p rest =>
    simp only [boundsOf, Option.some.injEq] at h
    subst h
    intro q hq
    rcases List.mem_cons.mp hq with h | h
    · subst h
      exact foldl_extendBounds_mono rest (q, q) q
        ⟨le_refl _, le_refl _, le_refl _, le_refl _⟩
    · exact foldl_extendBounds_mem rest (p, p) q h

/-! ## Claim theorems -/

/-- C2: for every sequence of `record(id, sample)` calls, each entity's
history has length at most 50 and its contents are exactly the most recently
appended samples for that entity in append order — when eviction happens it
removes the oldest entries from the front, which is precisely what taking
the 50-element suffix of the full append log expresses. -/
theorem history_bounded_fifo (calls : List (String × HistEntry))
    (id : String) :
    (runRecords calls id).length ≤ 50 ∧
    runRecords calls id = lastN 50 (callsFor id calls) := by
  have key : runRecords calls id = lastN 50 (callsFor id calls) := by
    induction calls using List.reverseRecOn with
    | nil => simp [runRecords, emptyHistories, callsFor, lastN]
    | append_singleton cs c ih =>
      rw [runRecords_append, callsFor_append]
      by_cases hid : c.1 = id
      · subst hid
        simp only [recordHistory, if_pos rfl, ih, if_pos rfl]
        exact trimHistory_lastN _ _
      · have hid' : id ≠ c.1 := fun hc => hid hc.symm
        simp only [recordHistory, if_neg hid', if_neg hid, ih,
          List.append_nil]
  exact ⟨key ▸ lastN_length_le 50 _, key⟩

/-- C3: for any event sequence (sample arrivals, history-display toggles,
history clears), `currentLocation` afterwards is the last sample delivered,
regardless of whether the history buffer has since evicted that sample
(eviction and the `showLocationHistory` flag only ever touch `histories`). -/
theorem latest_equals_last_recorded (st : RTState) (es : List RTEvent) :
    (runEvents st es).currentLocation = (lastSample es).or st.currentLocation := by
  induction es using List.reverseRecOn with
  | nil => simp [runEvents, lastSample]
  | append_singleton es e ih =>
    have hrun : runEvents st (es ++ [e]) = applyEvent (runEvents st es) e := by
      simp [runEvents, List.foldl_append]
    cases e with
    | sample loc ts =>
      have hlast : lastSample (es ++ [RTEvent.sample loc ts]) = some loc := by
        simp [lastSample, List.filterMap_append, List.getLast?_concat]
      rw [hrun, hlast]
      simp [applyEvent, sampleArrives]
    | setShow b =>
      have hlast : lastSample (es ++ [.setShow b]) = lastSample es := by
        simp [lastSample, List.filterMap_append]
      rw [hrun, hlast]
      simpa [applyEvent] using ih
    | clearHistory =>
      have hlast : lastSample (es ++ [.clearHistory]) = lastSample es := by
        simp [lastSample, List.filterMap_append]
      rw [hrun, hlast]
      simpa [applyEvent] using ih

/-- C1: starting from a freshly connected service, the `n`-th consecutive
unclean closure (for `n = 1..10`) schedules a reconnect after
`min(1000 * 2^(n-1), 30000)` ms — the sequence 1s, 2s, 4s, 8s, 16s, then
30s capped — and the 11th closure schedules nothing and reports the `error`
(Failed) status instead. -/
theorem reconnect_backoff_schedule :
    (∀ n, 1 ≤ n → n ≤ 10 →
      delayScheduledAt n = some (min (1000 * 2 ^ (n - 1)) 30000)) ∧
    (List.range 10).map (fun k => delayScheduledAt (k + 1)) =
      [some 1000, some 2000, some 4000, some 8000, some 16000,
       some 30000, some 30000, some 30000, some 30000, some 30000] ∧
    delayScheduledAt 11 = none ∧
    statusReportedAt 11 = some .error := by
  refine ⟨?_, by decide, by decide, by decide⟩
  intro n h1 h2
  interval_cases n <;> decide

/-- Witness for C1 at the 5th closure: delay `min(1000·2⁴, 30000) = 16000`. -/
theorem reconnect_backoff_schedule_witness :
    delayScheduledAt 5 = some (min (1000 * 2 ^ (5 - 1)) 30000) :=
  reconnect_backoff_schedule.1 5 (by decide) (by decide)

/-- C4: `disconnect()` cancels any pending scheduled reconnect timer and
closes the transport with the clean close `close(1000, ...)`; a clean
closure never runs the reconnection algorithm (no reconnect scheduled,
`reconnectAttempts` and the timer untouched); hence after a clean
disconnect — whatever `reconnectAttempts` was — no reconnect is scheduled,
neither by `disconnect` itself nor by the ensuing clean close event. -/
theorem clean_disconnect_never_reconnects (st : WSService) :
    (disconnect st).1.reconnectTimeout = none ∧
    schedulesReconnect (disconnect st).2 = false ∧
    (st.ws.isSome →
      Effect.closeTransport 1000 "Client disconnecting" ∈ (disconnect st).2) ∧
    (schedulesReconnect (onCloseEvent st true).2 = false ∧
      (onCloseEvent st true).1.reconnectAttempts = st.reconnectAttempts ∧
      (onCloseEvent st true).1.reconnectTimeout = st.reconnectTimeout) ∧
    schedulesReconnect (onCloseEvent (disconnect st).1 true).2 = false ∧
    (onCloseEvent (disconnect st).1 true).1.reconnectTimeout = none := by
  cases h : st.ws <;>
    simp [disconnect, onCloseEvent, schedulesReconnect, updateStatus, h]

/-- Witness for C4 at a service with 7 prior attempts, an open transport and
a pending 30s timer. -/
theorem clean_disconnect_never_reconnects_witness :
    Effect.closeTransport 1000 "Client disconnecting" ∈
      (disconnect ⟨some ReadyState.opened, 7, some 30000, false,
        some "driver@example.com"⟩).2 :=
  (clean_disconnect_never_reconnects
    ⟨some ReadyState.opened, 7, some 30000, false,
      some "driver@example.com"⟩).2.2.1 rfl

/-- C5: an inbound frame whose `JSON.parse` fails is logged and dropped: no
registered handler is invoked (the invocation list is empty), nothing is
thrown (the step is a total function), and the connection manager state and
the provider's stored entity data are returned unchanged. -/
theorem malformed_message_dropped (sys : SystemState) :
    processIncoming sys none = (sys, []) := rfl

/-- C9: when the transport is already open, `connect` resolves immediately
with the state unchanged — no new transport, no status emission, no
registration message, and the stored identity (possibly different from the
argument) is kept. -/
theorem connect_already_open_noop (st : WSService) (email : String)
    (h : st.ws = some ReadyState.opened) :
    connect st email = (st, ConnectOutcome.resolvedAlreadyOpen, []) := by
  simp [connect, h]

/-- Witness for C9: a service registered as `old@x.com` stays untouched by
`connect "new@x.com"` while open. -/
theorem connect_already_open_noop_witness :
    connect ⟨some ReadyState.opened, 0, none, false, some "old@x.com"⟩
        "new@x.com" =
      (⟨some ReadyState.opened, 0, none, false, some "old@x.com"⟩,
        ConnectOutcome.resolvedAlreadyOpen, []) :=
  connect_already_open_noop _ _ rfl

/-- C10: a sample arrival appends to the history buffer exactly when
`showLocationHistory` is set at that moment: with the flag off the sample
still becomes `currentLocation` but every entity's history is unchanged;
with the flag on, `current_employee`'s history gets the (trimmed) append
and every other entity's history is unchanged. -/
theorem history_append_gated_by_flag (st : RTState) (loc : Loc) (ts : String) :
    (st.showLocationHistory = false →
      (applyEvent st (.sample loc ts)).histories = st.histories ∧
      (applyEvent st (.sample loc ts)).currentLocation = some loc) ∧
    (st.showLocationHistory = true →
      (applyEvent st (.sample loc ts)).currentLocation = some loc ∧
      (applyEvent st (.sample loc ts)).histories "current_employee" =
        trimHistory (st.histories "current_employee" ++
          [⟨loc.lat, loc.lng, ts⟩]) ∧
      ∀ id, id ≠ "current_employee" →
        (applyEvent st (.sample loc ts)).histories id = st.histories id) := by
  constructor
  · intro h
    simp [applyEvent, sampleArrives, h]
  · intro h
    refine ⟨by simp [applyEvent, sampleArrives], ?_, ?_⟩
    · simp [applyEvent, sampleArrives, h, recordHistory]
    · intro id hid
      simp [applyEvent, sampleArrives, h, recordHistory, hid]

/-- Witness for C10 with the flag off: the sample updates `currentLocation`
but the (empty) history map is untouched. -/
theorem history_append_gated_by_flag_witness :
    (applyEvent ⟨none, emptyHistories, false⟩
        (RTEvent.sample ⟨1, 2, none⟩ "t")).histories = emptyHistories ∧
    (applyEvent ⟨none, emptyHistories, false⟩
        (RTEvent.sample ⟨1, 2, none⟩ "t")).currentLocation =
      some ⟨1, 2, none⟩ :=
  (history_append_gated_by_flag ⟨none, emptyHistories, false⟩
    ⟨1, 2, none⟩ "t").1 rfl

/-- Counterexample to C6 as stated: the position `(0, 5)` is not the
sentinel `(0,0)`, so per the claim two valid positions remain and the
viewport should be a bounds fit containing both — but the code's filter
drops every position with a zero latitude OR a zero longitude, leaving one
position and issuing a single-point `setView`. -/
theorem autofit_sentinel_counterexample :
    autoFitBusMap [some ⟨0, 5⟩, some ⟨3, 4⟩] none =
      ViewportCmd.setView ⟨3, 4⟩ 15 ∧
    (⟨0, 5⟩ : Pos) ≠ ⟨0, 0⟩ ∧ (⟨3, 4⟩ : Pos) ≠ ⟨0, 0⟩ := by decide

/-- C6 (amended): the auto-fit excludes every position whose latitude is 0
or whose longitude is 0 (a strictly larger set than just the `(0,0)`
sentinel); among the remaining positions: exactly one → center on it at
zoom 15; more than one → fit bounds, and the computed bounding box contains
all of them; zero → viewport unchanged. -/
theorem autofit_amended (busLocs : List (Option Pos)) (cur : Option Pos) :
    (∀ p ∈ validPositions busLocs cur, p.lat ≠ 0 ∧ p.lng ≠ 0) ∧
    (validPositions busLocs cur = [] →
      autoFitBusMap busLocs cur = .unchanged) ∧
    (∀ p, validPositions busLocs cur = [p] →
      autoFitBusMap busLocs cur = .setView p 15) ∧
    ((validPositions busLocs cur).length > 1 →
      autoFitBusMap busLocs cur = .fitBounds (validPositions busLocs cur) ∧
      ∃ b, boundsOf (validPositions busLocs cur) = some b ∧
        ∀ q ∈ validPositions busLocs cur, inBounds b q) := by
  have hmemchar : ∀ p, p ∈ validPositions busLocs cur →
      some p ∈ collectedLocs busLocs cur ∧ keepsPosition p = true := by
    intro p hp
    simpa [validPositions] using hp
  have hmemcol : ∀ p, p ∈ validPositions busLocs cur →
      (collectedLocs busLocs cur).length > 0 := fun p hp =>
    List.length_pos.mpr (List.ne_nil_of_mem (hmemchar p hp).1)
  refine ⟨?_, ?_, ?_, ?_⟩
  · intro p hp
    simpa [keepsPosition] using (hmemchar p hp).2
  · intro h
    simp [autoFitBusMap, h]
  · intro p hp
    have hcol := hmemcol p (by rw [hp]; exact List.mem_singleton_self p)
    simp [autoFitBusMap, hp, hcol]
  · intro h
    have hne : validPositions busLocs cur ≠ [] := by
      intro hnil; rw [hnil] at h; simp at h
    obtain ⟨p, hp⟩ := List.exists_mem_of_ne_nil _ hne
    have hcol := hmemcol p hp
    have hself : (validPositions busLocs cur).filter keepsPosition =
        validPositions busLocs cur :=
      List.filter_eq_self.mpr fun a ha => (hmemchar a ha).2
    have hfit : autoFitBusMap busLocs cur =
        .fitBounds (validPositions busLocs cur) := by
      have hne1 : ¬ (validPositions busLocs cur).length = 1 := by omega
      have hpos : (validPositions busLocs cur).length > 0 := by omega
      simp [autoFitBusMap, hcol, hne1, h, hself, hpos]
    obtain ⟨b, hb⟩ : ∃ b, boundsOf (validPositions busLocs cur) = some b := by
      cases hv : validPositions busLocs cur with
      | nil => exact absurd hv hne
      | cons a rest => exact ⟨_, rfl⟩
    exact ⟨hfit, b, hb, boundsOf_contains _ b hb⟩

/-- Witness for C6 (amended): two valid positions produce a bounds fit. -/
theorem autofit_amended_witness :
    autoFitBusMap [some ⟨1, 2⟩, some ⟨3, 4⟩] none =
      ViewportCmd.fitBounds (validPositions [some ⟨1, 2⟩, some ⟨3, 4⟩] none) :=
  ((autofit_amended [some ⟨1, 2⟩, some ⟨3, 4⟩] none).2.2.2 (by decide)).1

/-- Counterexample to C7 as stated: with a history of exactly 10 points the
claim puts the first ~70% (7 points) in the dashed older segment; the code
puts only the first 3 points (the complement of `recentCount = 7`) there,
and the two segments do not overlap. -/
theorem trail_split_counterexample :
    (locationTrail [⟨0, 0⟩, ⟨1, 1⟩, ⟨2, 2⟩, ⟨3, 3⟩, ⟨4, 4⟩, ⟨5, 5⟩, ⟨6, 6⟩,
        ⟨7, 7⟩, ⟨8, 8⟩, ⟨9, 9⟩] 4 1).map
      (fun s => (s.positions.length, s.dashed)) = [(3, true), (7, false)] ∧
    (3 : Nat) ≠ 7 := by decide

/-- C7 (amended): below 2 points no trail; 2–9 points one solid polyline at
the configured opacity; at 10 or more points two segments: the dashed older
segment is the first `len - ⌊0.7·len⌋` points (≈30%) at 30% of the
configured opacity, the solid recent segment is the last `⌊0.7·len⌋` points
(≈70%) at full opacity, and the two segments are disjoint, concatenating to
the full history. -/
theorem trail_rendering_amended (locs : List Pos) (weight opacity : ℚ) :
    (locs.length < 2 → locationTrail locs weight opacity = []) ∧
    (2 ≤ locs.length → locs.length ≤ 9 →
      locationTrail locs weight opacity = [⟨locs, weight, opacity, false⟩]) ∧
    (10 ≤ locs.length →
      locationTrail locs weight opacity =
        [⟨locs.take (locs.length - 7 * locs.length / 10), weight - 1,
            opacity * (3 / 10), true⟩,
         ⟨locs.drop (locs.length - 7 * locs.length / 10), weight, opacity,
            false⟩] ∧
      (locs.take (locs.length - 7 * locs.length / 10)).length =
        locs.length - 7 * locs.length / 10 ∧
      (locs.drop (locs.length - 7 * locs.length / 10)).length =
        7 * locs.length / 10 ∧
      locs.take (locs.length - 7 * locs.length / 10) ++
        locs.drop (locs.length - 7 * locs.length / 10) = locs) := by
  refine ⟨?_, ?_, ?_⟩
  · intro h
    simp [locationTrail, h]
  · intro h2 h9
    unfold locationTrail
    rw [if_neg (by omega), if_neg (by omega)]
  · intro h10
    have hC : (locs.take (locs.length - 7 * locs.length / 10)).length ≥ 2 := by
      simp [List.length_take]
      omega
    have hD : (locs.drop (locs.length - 7 * locs.length / 10)).length ≥ 2 := by
      simp [List.length_drop]
      omega
    refine ⟨?_, ?_, ?_, List.take_append_drop _ _⟩
    · simp only [locationTrail]
      rw [if_neg (show ¬ locs.length < 2 by omega), if_pos h10,
        if_pos hC, if_pos hD]
      rfl
    · simp only [List.length_take]
      omega
    · simp only [List.length_drop]
      omega

/-- Witness for C7 (amended): a 3-point history renders a single solid
polyline at the configured opacity. -/
theorem trail_rendering_amended_witness :
    locationTrail [⟨0, 0⟩, ⟨1, 1⟩, ⟨2, 2⟩] 4 1 =
      [⟨[⟨0, 0⟩, ⟨1, 1⟩, ⟨2, 2⟩], 4, 1, false⟩] :=
  (trail_rendering_amended [⟨0, 0⟩, ⟨1, 1⟩, ⟨2, 2⟩] 4 1).2.1
    (by decide) (by decide)

/-- Counterexample to C8 as stated: a bus whose persisted `current_location`
is the sentinel `(0,0)` but which has an assigned terminal at `(15,120)` is
resolved to the stored `(0,0)` — the code never applies the sentinel test in
the marker cascade, so the terminal does not win as the claim requires. -/
theorem marker_sentinel_counterexample :
    resolveBusPosition none (some ⟨0, 0⟩) (some ⟨15, 120⟩) 0 1 =
      MarkerSource.stored ⟨0, 0⟩ ∧
    MarkerSource.stored (⟨0, 0⟩ : Pos) ≠ MarkerSource.terminal ⟨15, 120⟩ := by
  decide

/-- C8 (amended): marker position resolution, first match wins: (1) the
live real-time location; (2) otherwise the stored current-location field
whenever it is present — including the sentinel `(0,0)`; (3) otherwise the
assigned terminal's position; (4) otherwise the deterministic placeholder on
the radius-0.001 circle around the map center, whose angle is
`2π·idx/total` whenever at least one bus exists. -/
theorem marker_resolution_amended (rt cl tl : Option Pos) (idx total : Nat)
    (center : Pos) (cosF sinF : ℚ → ℚ) (pi : ℚ) :
    (∀ p, rt = some p → resolveBusPosition rt cl tl idx total = .live p) ∧
    (rt = none → ∀ p, cl = some p →
      resolveBusPosition rt cl tl idx total = .stored p) ∧
    (rt = none → cl = none → ∀ p, tl = some p →
      resolveBusPosition rt cl tl idx total = .terminal p) ∧
    (rt = none → cl = none → tl = none →
      resolveBusPosition rt cl tl idx total = .placeholder idx total ∧
      markerCoordinates center cosF sinF pi
          (resolveBusPosition rt cl tl idx total) =
        placeholderPos center cosF sinF pi idx total) ∧
    (1 ≤ total →
      placeholderAngle idx total pi = ((idx : ℚ) * 2 * pi) / (total : ℚ)) := by
  refine ⟨?_, ?_, ?_, ?_, ?_⟩
  · intro p h
    subst h
    rfl
  · intro h1 p h2
    subst h1
    subst h2
    rfl
  · intro h1 h2 p h3
    subst h1
    subst h2
    subst h3
    rfl
  · intro h1 h2 h3
    subst h1
    subst h2
    subst h3
    exact ⟨rfl, rfl⟩
  · intro h
    simp [placeholderAngle, Nat.max_eq_left h]

/-- Witness for C8 (amended): a stored `(0,0)` beats an assigned terminal. -/
theorem marker_resolution_amended_witness :
    resolveBusPosition none (some ⟨0, 0⟩) (some ⟨15, 120⟩) 2 5 =
      MarkerSource.stored ⟨0, 0⟩ :=
  (marker_resolution_amended none (some ⟨0, 0⟩) (some ⟨15, 120⟩) 2 5
    ⟨0, 0⟩ (fun _ => 0) (fun _ => 0) 0).2.1 rfl ⟨0, 0⟩ rfl

end BusTracking
